/-
  Verification of the BlackRoad platform-integrations Safe HTTP Client
  (packages/platforms/core: config.ts and http-client.ts).

  The TypeScript source is shallowly embedded: pure helpers become Lean
  functions; the stateful rate limiter becomes explicit state passing with
  the current wall-clock time (milliseconds since epoch, as `Int`) passed
  in; the network is abstracted as an oracle giving the outcome of each
  fetch attempt; JavaScript `Record<string, string>` objects become
  association lists with object-spread semantics (later keys override,
  insertion order preserved).
-/

import Mathlib

namespace BlackRoad

/-- JS association record: list of key/value pairs, keys unique, insertion
order preserved.  Mirrors `Record<string, string>`. -/
abbrev Record := List (String × String)

/-- Setting a key on a JS object: an existing key is updated in place
(keeping its position), a new key is appended. -/
def recordSet (r : Record) (k v : String) : Record :=
  if r.any (fun p => p.1 = k) then
    r.map (fun p => if p.1 = k then (k, v) else p)
  else
    r ++ [(k, v)]

/-- Object spread `{...a, ...b}`: every key of `b` is set on `a` in order. -/
def recordSpread (a b : Record) : Record :=
  b.foldl (fun acc p => recordSet acc p.1 p.2) a

/-- Property access `r[k]` on a JS record: the value at the first (and,
for records built by object operations, only) occurrence of the key. -/
def recordGet (r : Record) (k : String) : Option String :=
  match r with
  | [] => none
  | p :: t => if p.1 = k then some p.2 else recordGet t k

/-- Model of `config.ts` — `PlatformCredentials`: optional credential strings. -/
structure PlatformCredentials where
  apiKey : Option String := none
  apiSecret : Option String := none
  accessToken : Option String := none
  refreshToken : Option String := none
  webhookSecret : Option String := none
deriving Repr, DecidableEq

/-- Model of `config.ts` — `PlatformConfig`. -/
structure PlatformConfig where
  name : String
  enabled : Bool
  baseUrl : String
  version : String
  credentials : PlatformCredentials
  timeout : Int
  retryAttempts : Nat
  rateLimitPerMinute : Int
deriving Repr, DecidableEq

/-- JS truthiness of an optional string field: `undefined` and the empty
string are falsy. -/
def jsTruthy (o : Option String) : Bool :=
  o.getD "" ≠ ""

/-- JS `a || b` on numbers as used by `createPlatformConfig` defaults:
`0` (the only falsy integer) falls back to the default. -/
def jsOrInt (o : Option Int) (d : Int) : Int :=
  match o with
  | none => d
  | some v => if v = 0 then d else v

/-- Model of `http-client.ts` — `SafeHttpClient.getAuthHeaders`: bearer token takes
priority over API key; empty strings are falsy in the `if` tests. -/
def getAuthHeaders (c : PlatformCredentials) : Record :=
  if jsTruthy c.accessToken then
    [("Authorization", "Bearer " ++ c.accessToken.getD "")]
  else if jsTruthy c.apiKey then
    [("X-API-Key", c.apiKey.getD "")]
  else
    []

/-- Model of `http-client.ts` — the header object built in `request` (lines
135–140): defaults, then auth headers, then caller headers, merged by
object spread. -/
def requestHeaders (cfg : PlatformConfig) (callerHeaders : Record) : Record :=
  recordSpread
    (recordSpread
      [("Content-Type", "application/json"),
       ("User-Agent", "BlackRoad-CLI/" ++ cfg.version)]
      (getAuthHeaders cfg.credentials))
    callerHeaders

/-! ### Model of the WHATWG `URL` class

`http-client.ts` relies on the JavaScript standard `URL` class
(`new URL(url)`, `new URL(path, base)`, `url.searchParams.append`,
`url.toString()`, `parsed.protocol`, `parsed.hostname`).  The fragment
used by the client is modelled here: scheme/authority/path/query/fragment
parsing for absolute URLs, relative-reference resolution against a base,
and query strings as ordered key/value pairs (`URLSearchParams`).  Scope:
components are taken verbatim (no percent-encoding or decoding) and
dot-segments in paths are not normalized; neither affects the scheme,
host, port or query components the theorems below speak about. -/

/-- A parsed URL.  `scheme` is lowercased without the trailing colon
(`parsed.protocol` is `scheme ++ ":"`); `host` is the lowercased hostname
(`parsed.hostname`, with brackets kept for IPv6 literals, as WHATWG
does); `path` starts with `/` for special schemes. -/
structure URLRec where
  scheme : String
  host : String
  port : Option Nat
  path : String
  query : List (String × String)
  fragment : Option String
deriving Repr, DecidableEq

/-- Schemes the WHATWG standard treats as special (authority-carrying). -/
def specialSchemes : List String := ["http", "https", "ws", "wss", "ftp", "file"]

/-- ASCII lowercasing of one character (the fragment of Unicode
lowercasing that scheme and host canonicalization touches here). -/
def lowerChar (c : Char) : Char :=
  if 65 <= c.toNat && c.toNat <= 90 then Char.ofNat (c.toNat + 32) else c

/-- ASCII lowercasing of a string. -/
def lowerString (s : String) : String :=
  String.mk (s.toList.map lowerChar)

/-- Characters allowed in a scheme after the first (alphabetic) one. -/
def isSchemeChar (c : Char) : Bool :=
  c.isAlpha || c.isDigit || c == '+' || c == '-' || c == '.'

/-- Split a leading `scheme:` off a URL string; fails when the string has
no valid scheme prefix (which is what makes `new URL` throw on relative
references and plain words). -/
def splitScheme (cs : List Char) : Option (String × List Char) :=
  let pre := cs.takeWhile isSchemeChar
  let rest := cs.dropWhile isSchemeChar
  match pre, rest with
  | c :: _, ':' :: rest' =>
    if c.isAlpha then some (lowerString (String.mk pre), rest') else none
  | _, _ => none

/-- The `URLSearchParams` view of a raw query string: split on `&`, drop empty
segments, split each segment at its first `=` (missing `=` gives an empty
value). -/
def parseQueryPairs (cs : List Char) : List (String × String) :=
  (cs.splitOn '&').filterMap fun seg =>
    if seg.isEmpty then none
    else
      let k := seg.takeWhile (· != '=')
      let v := (seg.dropWhile (· != '=')).drop 1
      some (String.mk k, String.mk v)

/-- Characters that may not appear in a hostname (a subset of the WHATWG
forbidden host code points; `/`, `?`, `#`, `:` are already excluded by the
authority chunking). -/
def isForbiddenHostChar (c : Char) : Bool :=
  c == ' ' || c == '<' || c == '>' || c == '@' || c == '^' ||
  c == '|' || c == '\\' || c == '%' || c == '"' || c.toNat < 33

/-- Parse a port suffix: empty means no explicit port; otherwise decimal
digits bounded by 65535. -/
def parsePortDigits (cs : List Char) : Option (Option Nat) :=
  if cs.isEmpty then some none
  else if cs.all Char.isDigit then
    let n := cs.foldl (fun a c => a * 10 + (c.toNat - 48)) 0
    if n ≤ 65535 then some (some n) else none
  else none

/-- Parse an authority chunk into hostname and port, stripping userinfo
and keeping brackets on IPv6 literals. -/
def parseAuthority (cs : List Char) : Option (String × Option Nat) :=
  let hostport := (cs.splitOn '@').getLastD []
  match hostport with
  | '[' :: t =>
    let inside := t.takeWhile (· != ']')
    (match t.dropWhile (· != ']') with
     | ']' :: rest =>
       let host := "[" ++ String.mk inside ++ "]"
       (match rest with
        | [] => some (host, none)
        | ':' :: pd => (parsePortDigits pd).map (fun p => (host, p))
        | _ => none)
     | _ => none)
  | _ =>
    if hostport.any isForbiddenHostChar then none
    else
      let host := hostport.takeWhile (· != ':')
      (match hostport.dropWhile (· != ':') with
       | ':' :: pd => (parsePortDigits pd).map (fun p => (lowerString (String.mk host), p))
       | _ => some (lowerString (String.mk host), none))

/-- Split the `?query#fragment` tail of a URL; the first component is
`some` exactly when a `?` is present. -/
def splitTail (rest : List Char) : Option (List Char) × Option (List Char) :=
  match rest with
  | '?' :: t =>
    (some (t.takeWhile (· != '#')),
     match t.dropWhile (· != '#') with
     | _ :: f => some f
     | [] => none)
  | '#' :: f => (none, some f)
  | _ => (none, none)

/-- Characters the WHATWG URL parser removes from the input before any
parsing: ASCII tab, LF and CR. -/
def stripTabNewlines (cs : List Char) : List Char :=
  cs.filter (fun c => !(c == '\t' || c == '\n' || c == '\r'))

/-- The WHATWG backslash-as-slash rule for special-scheme URLs: a
backslash counts as a slash. -/
def slashify (c : Char) : Char :=
  if c == '\\' then '/' else c

/-- Parse of an absolute, already tab/newline-stripped character
sequence; `none` models the URL constructor throwing.  For special
schemes, backslashes count as slashes before, around and inside the
path, per the WHATWG rule. -/
def parseURLChars (cs : List Char) : Option URLRec :=
  match splitScheme cs with
  | none => none
  | some (scheme, rest) =>
    if specialSchemes.contains scheme then
      let rest := rest.dropWhile (fun c => c == '/' || c == '\\')
      let auth := rest.takeWhile (fun c => c != '/' && c != '\\' && c != '?' && c != '#')
      let tail := rest.dropWhile (fun c => c != '/' && c != '\\' && c != '?' && c != '#')
      match parseAuthority auth with
      | none => none
      | some (host, port) =>
        if host = "" then none
        else
          let path := (tail.takeWhile (fun c => c != '?' && c != '#')).map slashify
          let (q, f) := splitTail (tail.dropWhile (fun c => c != '?' && c != '#'))
          some ⟨scheme, host, port,
                if path.isEmpty then "/" else String.mk path,
                parseQueryPairs (q.getD []), f.map String.mk⟩
    else
      let path := rest.takeWhile (fun c => c != '?' && c != '#')
      let (q, f) := splitTail (rest.dropWhile (fun c => c != '?' && c != '#'))
      some ⟨scheme, "", none, String.mk path, parseQueryPairs (q.getD []), f.map String.mk⟩

/-- Model of `new URL(s)` on an absolute URL string: strip tabs and
newlines, then parse; `none` models the constructor throwing. -/
def parseURL (s : String) : Option URLRec :=
  parseURLChars (stripTabNewlines s.toList)

/-- Resolution of a relative reference (already stripped of
tabs/newlines, and with backslashes already slashified when the base
scheme is special) against a base: the path resolves against the base's
path and the base's query survives only when the reference is empty. -/
def resolveRelative (cs : List Char) (base : URLRec) : URLRec :=
  let pathChunk := cs.takeWhile (fun c => c != '?' && c != '#')
  let (q, f) := splitTail (cs.dropWhile (fun c => c != '?' && c != '#'))
  let query :=
    match q with
    | some qs => parseQueryPairs qs
    | none => if pathChunk.isEmpty then base.query else []
  let path :=
    if pathChunk.isEmpty then base.path
    else if pathChunk.head? = some '/' then String.mk pathChunk
    else
      let dir := ((base.path.toList).reverse.dropWhile (· != '/')).reverse
      String.mk ((if dir.isEmpty then ['/'] else dir) ++ pathChunk)
  { base with path := path, query := query, fragment := f.map String.mk }

/-- Model of `new URL(ref, base)` for an already-parsed base: strip tabs
and newlines; an absolute `ref` ignores the base; when the base scheme
is special, backslashes count as slashes, so a reference beginning with
two slash-like characters takes only the base's scheme and carries its
own authority (and the same mapping applies to its path separators);
anything else resolves relative to the base. -/
def resolveURL (ref : String) (base : URLRec) : Option URLRec :=
  let cs0 := stripTabNewlines ref.toList
  match parseURLChars cs0 with
  | some u => some u
  | none =>
    let cs := if specialSchemes.contains base.scheme then cs0.map slashify else cs0
    if cs.take 2 = ['/', '/'] then
      parseURLChars (base.scheme.toList ++ ':' :: cs)
    else
      some (resolveRelative cs base)

/-- Model of `url.toString()`: serialize a parsed URL back to a string. -/
def urlToString (u : URLRec) : String :=
  let auth :=
    if u.host = "" then ""
    else "//" ++ u.host ++ (match u.port with | none => "" | some p => ":" ++ toString p)
  u.scheme ++ ":" ++ auth ++ u.path ++
    (if u.query.isEmpty then ""
     else "?" ++ String.intercalate "&" (u.query.map (fun p => p.1 ++ "=" ++ p.2))) ++
    (match u.fragment with | none => "" | some f => "#" ++ f)

/-- The hosts blocked by the SSRF guard (`http-client.ts` line 67). -/
def blockedHosts : List String := ["localhost", "127.0.0.1", "0.0.0.0", "::1"]

/-- Model of `SafeHttpClient.validateUrl` (lines 59–75).  `production` is
`process.env.NODE_ENV === 'production'`; the source compares
`parsed.protocol !== 'https:'`, i.e. our scheme against `"https"`. -/
def validateUrl (url : String) (production : Bool) : Bool :=
  match parseURL url with
  | none => false
  | some parsed =>
    if production && parsed.scheme != "https" then false
    else if blockedHosts.contains parsed.host then !production
    else true

/-- Model of `SafeHttpClient.buildUrl` (lines 80–88): resolve `path` against the
configured base URL, then `searchParams.append` each pair of `query` in
order.  `none` models `new URL` throwing. -/
def buildUrl (baseUrl : String) (path : String) (query : Record) : Option URLRec :=
  match parseURL baseUrl with
  | none => none
  | some b =>
    match resolveURL path b with
    | none => none
    | some u => some { u with query := u.query ++ query }

/-- The string `buildUrl` actually returns (`url.toString()`). -/
def buildUrlString (baseUrl : String) (path : String) (query : Record) : Option String :=
  (buildUrl baseUrl path query).map urlToString

/-- The `RateLimiter` record (lines 34–38); times in ms since epoch. -/
structure RateLimiter where
  remaining : Int
  limit : Int
  resetAt : Int
deriving Repr, DecidableEq

/-- The limiter built by the constructor (lines 49–53) at time `now`. -/
def initRateLimiter (rateLimitPerMinute : Int) (now : Int) : RateLimiter :=
  { remaining := rateLimitPerMinute
    limit := rateLimitPerMinute
    resetAt := now + 60000 }

/-- Model of `SafeHttpClient.checkRateLimit` (lines 108–121) run at time `now`:
returns the milliseconds slept waiting for the window plus the updated
limiter.  Reset when the window expired, sleep-and-refill when the budget
is exhausted, then decrement for the attempt about to be made. -/
def checkRateLimit (rl : RateLimiter) (now : Int) : Int × RateLimiter :=
  let rl1 :=
    if now > rl.resetAt then
      { rl with remaining := rl.limit, resetAt := now + 60000 }
    else rl
  let (waitTime, rl2) :=
    if rl1.remaining ≤ 0 then
      (rl1.resetAt - now, { rl1 with remaining := rl1.limit })
    else (0, rl1)
  (waitTime, { rl2 with remaining := rl2.remaining - 1 })

/-- What the outside world does on one fetch attempt: either `fetch`
rejects (network failure / timeout, carrying a JS error modelled as a
string), or it resolves with a status line, headers and the outcome of
`response.json()` (which throws, caught by the same handler, when the
body is empty or not valid JSON). -/
inductive AttemptOutcome (J : Type) where
  | fetchError : String → AttemptOutcome J
  | response : Nat → String → Record → Except String J → AttemptOutcome J
deriving Repr

/-- The `HttpResponse` envelope (lines 26–32). -/
structure HttpResponse (J : Type) where
  status : Nat
  statusText : String
  headers : Record
  data : J
  requestId : Option String
deriving Repr

/-- Observable trace of the retry loop: its result (`Except.error le`
models `throw lastError || new Error('Request failed after retries')`,
with `le = none` for the fallback), the number of fetch attempts made,
and the backoff sleeps performed, in order and in milliseconds. -/
structure LoopTrace (J : Type) where
  result : Except (Option String) (HttpResponse J)
  attempts : Nat
  backoffsMs : List Nat
deriving Repr

/-- The body of the retry loop (lines 144–171), recursing on the number
of remaining iterations; `total - rem` is the current `attempt` index.
A resolved fetch whose body decodes returns immediately — the HTTP
status is not inspected.  Any caught error is retained and, when
attempts remain, a `2^attempt * 1000` ms backoff is slept. -/
def retryLoopGo (oracle : Nat → AttemptOutcome J) (total : Nat) :
    Nat → Option String → LoopTrace J
  | 0, lastError => ⟨Except.error lastError, 0, []⟩
  | rem + 1, _ =>
    let attempt := total - (rem + 1)
    match oracle attempt with
    | .response st stx hs (.ok j) =>
      ⟨Except.ok ⟨st, stx, hs, j, recordGet hs "x-request-id"⟩, 1, []⟩
    | .response _ _ _ (.error e) =>
      let backoff := if attempt < total - 1 then [2 ^ attempt * 1000] else []
      let t := retryLoopGo oracle total rem (some e)
      ⟨t.result, t.attempts + 1, backoff ++ t.backoffsMs⟩
    | .fetchError e =>
      let backoff := if attempt < total - 1 then [2 ^ attempt * 1000] else []
      let t := retryLoopGo oracle total rem (some e)
      ⟨t.result, t.attempts + 1, backoff ++ t.backoffsMs⟩

/-- The whole retry loop of `request`, `retryAttempts` iterations. -/
def retryLoop (oracle : Nat → AttemptOutcome J) (retryAttempts : Nat) : LoopTrace J :=
  retryLoopGo oracle retryAttempts retryAttempts none

/-- How a call to `request` can fail. -/
inductive RequestError where
  /-- Case where `new URL` threw while building the URL (propagates uncaught). -/
  | urlParseFailure : RequestError
  /-- Case `throw new Error('Invalid or blocked URL: ...')` (line 130). -/
  | invalidUrl : String → RequestError
  /-- all attempts failed; carries `lastError` (`none` = the generic
  `'Request failed after retries'` fallback). -/
  | exhausted : Option String → RequestError
deriving Repr, DecidableEq

/-- Observable outcome of one `request` call: result, rate limiter after
the call, the rate-limit sleep (`none` when the check never ran), the
headers passed to `fetch` (`none` when no fetch was reached), attempts
made and backoffs slept. -/
structure RequestResult (J : Type) where
  outcome : Except RequestError (HttpResponse J)
  rateLimiter : RateLimiter
  rateWaitMs : Option Int
  sentHeaders : Option Record
  attempts : Nat
  backoffsMs : List Nat
deriving Repr

/-- Model of `SafeHttpClient.request` (lines 126–174) with the network abstracted
by `oracle` and the clock by `now`: build the URL, validate it, run the
rate-limit check, assemble headers, then the retry loop. -/
def request (cfg : PlatformConfig) (production : Bool) (rl : RateLimiter)
    (now : Int) (path : String) (queryOpt : Record) (callerHeaders : Record)
    (oracle : Nat → AttemptOutcome J) : RequestResult J :=
  match buildUrlString cfg.baseUrl path queryOpt with
  | none => ⟨Except.error .urlParseFailure, rl, none, none, 0, []⟩
  | some url =>
    if !validateUrl url production then
      ⟨Except.error (.invalidUrl url), rl, none, none, 0, []⟩
    else
      let wrl := checkRateLimit rl now
      let headers := requestHeaders cfg callerHeaders
      let t := retryLoop oracle cfg.retryAttempts
      ⟨(match t.result with
        | .ok r => Except.ok r
        | .error le => Except.error (.exhausted le)),
       wrl.2, some wrl.1, some headers, t.attempts, t.backoffsMs⟩

/-- The error the `catch` block captures on a failed attempt: the fetch
rejection, or the `response.json()` throw; `none` when the attempt
succeeds. -/
def attemptErr : AttemptOutcome J → Option String
  | .fetchError e => some e
  | .response _ _ _ (.error e) => some e
  | .response _ _ _ (.ok _) => none

/-- A concrete configuration (in the shape `createPlatformConfig`
produces, with the library defaults `retryAttempts = 3`,
`timeout = 30000`, `rateLimitPerMinute = 60`) used as test input. -/
def sampleConfig : PlatformConfig :=
  { name := "sample"
    enabled := true
    baseUrl := "https://api.example.com"
    version := "v1"
    credentials := {}
    timeout := 30000
    retryAttempts := 3
    rateLimitPerMinute := 60 }

/-- Variant of `sampleConfig` with both an access token and an API key configured. -/
def sampleConfigBothCreds : PlatformConfig :=
  { sampleConfig with
    credentials := { accessToken := some "t", apiKey := some "k" } }

/-- Variant of `sampleConfig` pointed at a loopback base URL. -/
def localConfig : PlatformConfig :=
  { sampleConfig with baseUrl := "http://localhost" }

/-- The spec's rate-limiter invariant: `0 <= remaining <= limit`. -/
def rlInv (rl : RateLimiter) : Prop :=
  0 ≤ rl.remaining ∧ rl.remaining ≤ rl.limit

instance (rl : RateLimiter) : Decidable (rlInv rl) := by
  unfold rlInv
  infer_instance

/-! ## Helper lemmas about JS records -/

theorem recordGet_eq_none_of_not_mem_keys {r : Record} {k : String}
    (h : k ∉ r.map Prod.fst) : recordGet r k = none := by
  induction r with
  | nil => rfl
  | cons p t ih =>
    simp only [List.map_cons, List.mem_cons] at h
    push_neg at h
    simp only [recordGet]
    rw [if_neg (fun hk => h.1 hk.symm)]
    exact ih h.2

theorem recordGet_eq_none_of_any_keys_false {r : Record} {k : String}
    (h : r.any (fun p => p.1 = k) = false) : recordGet r k = none := by
  induction r with
  | nil => rfl
  | cons p t ih =>
    simp only [List.any_cons, Bool.or_eq_false_iff, decide_eq_false_iff_not] at h
    simp only [recordGet, if_neg h.1]
    exact ih h.2

theorem recordGet_append_of_none {r : Record} {k : String} (s : Record)
    (h : recordGet r k = none) : recordGet (r ++ s) k = recordGet s k := by
  induction r with
  | nil => rfl
  | cons p t ih =>
    simp only [recordGet] at h
    by_cases hp : p.1 = k
    · rw [if_pos hp] at h
      exact absurd h (by simp)
    · rw [if_neg hp] at h
      rw [List.cons_append]
      simp only [recordGet, if_neg hp]
      exact ih h

theorem recordGet_append_single_ne (r : Record) (k v k2 : String) (h : k2 ≠ k) :
    recordGet (r ++ [(k, v)]) k2 = recordGet r k2 := by
  induction r with
  | nil => simp [recordGet, Ne.symm h]
  | cons p t ih =>
    rw [List.cons_append]
    simp only [recordGet]
    by_cases hp : p.1 = k2
    · rw [if_pos hp, if_pos hp]
    · rw [if_neg hp, if_neg hp]
      exact ih

theorem recordGet_map_set_self (r : Record) (k v : String)
    (ha : r.any (fun p => p.1 = k) = true) :
    recordGet (r.map (fun p => if p.1 = k then (k, v) else p)) k = some v := by
  induction r with
  | nil => simp at ha
  | cons p t ih =>
    simp only [List.any_cons, Bool.or_eq_true, decide_eq_true_eq] at ha
    simp only [List.map_cons]
    by_cases hp : p.1 = k
    · rw [if_pos hp]
      simp [recordGet]
    · rw [if_neg hp]
      simp only [recordGet, if_neg hp]
      exact ih (ha.resolve_left hp)

theorem recordGet_map_set_ne (r : Record) (k v k2 : String) (h : k2 ≠ k) :
    recordGet (r.map (fun p => if p.1 = k then (k, v) else p)) k2 = recordGet r k2 := by
  induction r with
  | nil => rfl
  | cons p t ih =>
    simp only [List.map_cons]
    by_cases hp : p.1 = k
    · rw [if_pos hp]
      simp only [recordGet]
      rw [if_neg (Ne.symm h), if_neg (hp ▸ Ne.symm h)]
      exact ih
    · rw [if_neg hp]
      simp only [recordGet]
      by_cases hpk : p.1 = k2
      · rw [if_pos hpk, if_pos hpk]
      · rw [if_neg hpk, if_neg hpk]
        exact ih

theorem recordGet_recordSet_self (r : Record) (k v : String) :
    recordGet (recordSet r k v) k = some v := by
  unfold recordSet
  split
  case isTrue ha => exact recordGet_map_set_self r k v ha
  case isFalse ha =>
    rw [recordGet_append_of_none _
      (recordGet_eq_none_of_any_keys_false (Bool.of_not_eq_true ha))]
    simp [recordGet]

theorem recordGet_recordSet_ne (r : Record) (k v k2 : String) (h : k2 ≠ k) :
    recordGet (recordSet r k v) k2 = recordGet r k2 := by
  unfold recordSet
  split
  · exact recordGet_map_set_ne r k v k2 h
  · exact recordGet_append_single_ne r k v k2 h

theorem recordGet_recordSpread_of_none {b : Record} {k : String} (a : Record)
    (h : recordGet b k = none) : recordGet (recordSpread a b) k = recordGet a k := by
  induction b generalizing a with
  | nil => rfl
  | cons p t ih =>
    simp only [recordGet] at h
    by_cases hp : p.1 = k
    · rw [if_pos hp] at h
      exact absurd h (by simp)
    · rw [if_neg hp] at h
      show recordGet (recordSpread (recordSet a p.1 p.2) t) k = recordGet a k
      rw [ih _ h]
      exact recordGet_recordSet_ne a p.1 p.2 k (fun hk => hp hk.symm)

theorem recordGet_recordSpread_of_some {b : Record} {k v : String} (a : Record)
    (hnd : (b.map Prod.fst).Nodup) (h : recordGet b k = some v) :
    recordGet (recordSpread a b) k = some v := by
  induction b generalizing a with
  | nil => exact absurd h (by simp [recordGet])
  | cons p t ih =>
    simp only [List.map_cons, List.nodup_cons] at hnd
    simp only [recordGet] at h
    by_cases hp : p.1 = k
    · rw [if_pos hp] at h
      have ht : recordGet t k = none :=
        recordGet_eq_none_of_not_mem_keys (hp ▸ hnd.1)
      show recordGet (recordSpread (recordSet a p.1 p.2) t) k = some v
      rw [recordGet_recordSpread_of_none _ ht]
      rw [Option.some.injEq] at h
      rw [← h]
      exact hp ▸ recordGet_recordSet_self a p.1 p.2
    · rw [if_neg hp] at h
      exact ih (recordSet a p.1 p.2) hnd.2 h

/-! ## Helper lemmas about the retry loop -/

/-- If every attempt the loop body will still make is caught as an error
(`attemptErr` is `some`), the loop performs all its remaining iterations,
sleeps `2 ^ attempt * 1000` ms after every failure except the last, and
ends with the error of the final attempt (or the incoming `lastError`
when no iteration remains). -/
theorem retryLoopGo_allFail {J : Type} (oracle : Nat → AttemptOutcome J)
    (e : Nat → String) (total : Nat) :
    ∀ (rem : Nat) (lastE : Option String), rem ≤ total →
    (∀ i, total - rem ≤ i → i < total → attemptErr (oracle i) = some (e i)) →
    retryLoopGo oracle total rem lastE =
      ⟨Except.error (if rem = 0 then lastE else some (e (total - 1))), rem,
       (List.range' (total - rem) (rem - 1)).map (fun i => 2 ^ i * 1000)⟩ := by
  intro rem
  induction rem with
  | zero => intro lastE _ _; simp [retryLoopGo]
  | succ n ih =>
    intro lastE hle h
    have hatt : attemptErr (oracle (total - (n + 1))) = some (e (total - (n + 1))) :=
      h _ (Nat.le_refl _) (by omega)
    have hcont :
        retryLoopGo oracle total n (some (e (total - (n + 1)))) =
          ⟨Except.error (if n = 0 then some (e (total - (n + 1))) else some (e (total - 1))),
           n, (List.range' (total - n) (n - 1)).map (fun i => 2 ^ i * 1000)⟩ :=
      ih _ (by omega) (fun i h1 h2 => h i (by omega) h2)
    have hres :
        (if n = 0 then some (e (total - (n + 1))) else some (e (total - 1))) =
          some (e (total - 1)) := by
      by_cases hn : n = 0
      · subst hn; norm_num
      · rw [if_neg hn]
    rcases ho : oracle (total - (n + 1)) with err | ⟨st, stx, hs, body⟩
    case fetchError =>
      have he : err = e (total - (n + 1)) := by
        have hx := hatt
        rw [ho] at hx
        simpa [attemptErr] using hx
      subst he
      simp only [retryLoopGo, ho, hcont, hres, LoopTrace.mk.injEq]
      refine ⟨by trivial, by trivial, ?_⟩
      by_cases hn : n = 0
      · subst hn
        simp [lt_irrefl]
      · obtain ⟨m, rfl⟩ : ∃ m, n = m + 1 := ⟨n - 1, by omega⟩
        have hlt : total - (m + 1 + 1) < total - 1 := by omega
        have hr : total - (m + 1 + 1) + 1 = total - (m + 1) := by omega
        rw [if_pos hlt, show m + 1 + 1 - 1 = m + 1 from rfl, List.range'_succ, hr]
        simp
    case response =>
      rcases body with ej | j
      · have he : ej = e (total - (n + 1)) := by
          have hx := hatt
          rw [ho] at hx
          simpa [attemptErr] using hx
        subst he
        simp only [retryLoopGo, ho, hcont, hres, LoopTrace.mk.injEq]
        refine ⟨by trivial, by trivial, ?_⟩
        by_cases hn : n = 0
        · subst hn
          simp [lt_irrefl]
        · obtain ⟨m, rfl⟩ : ∃ m, n = m + 1 := ⟨n - 1, by omega⟩
          have hlt : total - (m + 1 + 1) < total - 1 := by omega
          have hr : total - (m + 1 + 1) + 1 = total - (m + 1) := by omega
          rw [if_pos hlt, show m + 1 + 1 - 1 = m + 1 from rfl, List.range'_succ, hr]
          simp
      · rw [ho] at hatt
        exact absurd hatt (by simp [attemptErr])

/-- The whole retry loop when every one of the `total` attempts fails. -/
theorem retryLoop_allFail {J : Type} (oracle : Nat → AttemptOutcome J)
    (e : Nat → String) (total : Nat) (h1 : 1 ≤ total)
    (h : ∀ i, i < total → attemptErr (oracle i) = some (e i)) :
    retryLoop oracle total =
      ⟨Except.error (some (e (total - 1))), total,
       (List.range (total - 1)).map (fun i => 2 ^ i * 1000)⟩ := by
  rw [retryLoop, retryLoopGo_allFail oracle e total total none (Nat.le_refl total)
    (fun i _ h2 => h i h2)]
  have : total ≠ 0 := by omega
  simp [this, List.range_eq_range']

/-- If every attempt before index `k` is caught as an error and attempt
`k` resolves with a decodable body, the loop — entered with the attempts
before `total - rem` already behind it, all of them within the failing
prefix — runs the remaining failures, sleeping `2 ^ attempt * 1000` ms
after each, and returns attempt `k`'s response. -/
theorem retryLoopGo_prefixFail_success {J : Type}
    (oracle : Nat → AttemptOutcome J) (e : Nat → String) (total : Nat)
    (st : Nat) (stx : String) (hs : Record) (j : J) (k : Nat) (hk : k < total)
    (hfail : ∀ i, i < k → attemptErr (oracle i) = some (e i))
    (hok : oracle k = AttemptOutcome.response st stx hs (Except.ok j)) :
    ∀ (rem : Nat) (lastE : Option String), rem ≤ total → total - rem ≤ k →
    retryLoopGo oracle total rem lastE =
      ⟨Except.ok ⟨st, stx, hs, j, recordGet hs "x-request-id"⟩,
       k + 1 - (total - rem),
       (List.range' (total - rem) (k - (total - rem))).map
         (fun i => 2 ^ i * 1000)⟩ := by
  intro rem
  induction rem with
  | zero =>
    intro lastE _ hle
    exact absurd hle (by omega)
  | succ n ih =>
    intro lastE hrem hle
    rcases Nat.lt_or_ge (total - (n + 1)) k with hlt | hge
    · have hatt : attemptErr (oracle (total - (n + 1))) =
          some (e (total - (n + 1))) := hfail _ hlt
      have hbo : total - (n + 1) < total - 1 := by omega
      have hta : total - n = (total - (n + 1)) + 1 := by omega
      have hat : k + 1 - (total - n) + 1 = k + 1 - (total - (n + 1)) := by omega
      have hk1 : k - (total - (n + 1)) = (k - (total - n)) + 1 := by omega
      have hrec := ih (some (e (total - (n + 1)))) (by omega) (by omega)
      rcases ho : oracle (total - (n + 1)) with err | ⟨st2, stx2, hs2, body⟩
      case fetchError =>
        have he : err = e (total - (n + 1)) := by
          rw [ho] at hatt
          simpa [attemptErr] using hatt
        subst he
        simp only [retryLoopGo, ho, hrec, if_pos hbo, LoopTrace.mk.injEq]
        refine ⟨by trivial, hat, ?_⟩
        rw [hk1, List.range'_succ, ← hta]
        simp
      case response =>
        rcases body with ej | j2
        · have he : ej = e (total - (n + 1)) := by
            rw [ho] at hatt
            simpa [attemptErr] using hatt
          subst he
          simp only [retryLoopGo, ho, hrec, if_pos hbo, LoopTrace.mk.injEq]
          refine ⟨by trivial, hat, ?_⟩
          rw [hk1, List.range'_succ, ← hta]
          simp
        · rw [ho] at hatt
          exact absurd hatt (by simp [attemptErr])
    · have hak : total - (n + 1) = k := by omega
      simp only [retryLoopGo, hak, hok]
      have h1 : k + 1 - k = 1 := by omega
      rw [h1, Nat.sub_self]
      simp [List.range']

/-! ## Helper lemmas about the rate limiter -/

/-- One check inside the current window with budget left: no wait, one
decrement. -/
theorem checkRateLimit_pos (rl : RateLimiter) (now : Int)
    (hw : ¬ now > rl.resetAt) (hr : 0 < rl.remaining) :
    checkRateLimit rl now = (0, { rl with remaining := rl.remaining - 1 }) := by
  rw [checkRateLimit]
  simp only [if_neg hw, if_neg (by omega : ¬ rl.remaining ≤ 0)]

/-- One check inside the current window with the budget exhausted: wait
until `resetAt`, refill, decrement. -/
theorem checkRateLimit_wait (rl : RateLimiter) (now : Int)
    (hw : ¬ now > rl.resetAt) (hr : rl.remaining ≤ 0) :
    checkRateLimit rl now =
      (rl.resetAt - now, { rl with remaining := rl.limit - 1 }) := by
  rw [checkRateLimit]
  simp only [if_neg hw, if_pos hr]

/-! ## The claims -/

/-- Claim C4 — for a limiter with `limit = 2`, two checks within the same
60-second window pass without waiting; a third check in the same window
sleeps exactly until the window's `resetAt` time (`t0 + 60000`), and the
limiter that emerges from it has `remaining = limit - 1`. -/
theorem C4_rate_limit_window (t0 t1 t2 t3 : Int)
    (h1 : t1 ≤ t0 + 60000) (h2 : t2 ≤ t0 + 60000) (h3 : t3 ≤ t0 + 60000) :
    (checkRateLimit (initRateLimiter 2 t0) t1).1 = 0 ∧
    (checkRateLimit ((checkRateLimit (initRateLimiter 2 t0) t1).2) t2).1 = 0 ∧
    (checkRateLimit ((checkRateLimit ((checkRateLimit
        (initRateLimiter 2 t0) t1).2) t2).2) t3).1 = (t0 + 60000) - t3 ∧
    (checkRateLimit ((checkRateLimit ((checkRateLimit
        (initRateLimiter 2 t0) t1).2) t2).2) t3).2.remaining =
      (initRateLimiter 2 t0).limit - 1 := by
  have s1 : checkRateLimit (initRateLimiter 2 t0) t1 =
      (0, ⟨1, 2, t0 + 60000⟩) := by
    rw [checkRateLimit_pos (initRateLimiter 2 t0) t1 (by simp [initRateLimiter]; omega)
      (by simp [initRateLimiter])]
    rfl
  have s2 : checkRateLimit (⟨1, 2, t0 + 60000⟩ : RateLimiter) t2 =
      (0, ⟨0, 2, t0 + 60000⟩) := by
    rw [checkRateLimit_pos _ t2 (by simp; omega) (by simp)]
    rfl
  have s3 : checkRateLimit (⟨0, 2, t0 + 60000⟩ : RateLimiter) t3 =
      ((t0 + 60000) - t3, ⟨1, 2, t0 + 60000⟩) := by
    rw [checkRateLimit_wait _ t3 (by simp; omega) (by simp)]
    rfl
  rw [s1]
  simp only
  rw [s2]
  simp only
  rw [s3]
  exact ⟨trivial, trivial, rfl, by simp [initRateLimiter]⟩

/-- Claim C4 witness — the window scenario at concrete times. -/
theorem C4_rate_limit_window_witness :
    (checkRateLimit (initRateLimiter 2 0) 1).1 = 0 ∧
    (checkRateLimit ((checkRateLimit (initRateLimiter 2 0) 1).2) 2).1 = 0 ∧
    (checkRateLimit ((checkRateLimit ((checkRateLimit
        (initRateLimiter 2 0) 1).2) 2).2) 3).1 = (0 + 60000) - 3 ∧
    (checkRateLimit ((checkRateLimit ((checkRateLimit
        (initRateLimiter 2 0) 1).2) 2).2) 3).2.remaining =
      (initRateLimiter 2 0).limit - 1 :=
  C4_rate_limit_window 0 1 2 3 (by decide) (by decide) (by decide)

/-- Claim C7 — when the built URL fails validation, `request` fails
immediately with the invalid-URL error: no fetch attempt, no backoff, no
rate-limit check, and the rate limiter is returned unchanged. -/
theorem C7_invalid_url_aborts {J : Type} (cfg : PlatformConfig)
    (production : Bool) (rl : RateLimiter) (now : Int) (path : String)
    (q ch : Record) (oracle : Nat → AttemptOutcome J) (url : String)
    (hbuild : buildUrlString cfg.baseUrl path q = some url)
    (hval : validateUrl url production = false) :
    request cfg production rl now path q ch oracle =
      ⟨Except.error (RequestError.invalidUrl url), rl, none, none, 0, []⟩ := by
  rw [request]
  simp only [hbuild, hval, Bool.not_false, if_pos]

/-- Claim C7 witness — a production request to a loopback base URL aborts
with the invalid-URL error and leaves the limiter untouched. -/
theorem C7_invalid_url_aborts_witness :
    request (J := Unit) localConfig true (initRateLimiter 60 0) 5 "/x" [] []
        (fun _ => AttemptOutcome.fetchError "never reached") =
      ⟨Except.error (RequestError.invalidUrl "http://localhost/x"),
       initRateLimiter 60 0, none, none, 0, []⟩ :=
  C7_invalid_url_aborts localConfig true (initRateLimiter 60 0) 5 "/x" [] []
    (fun _ => AttemptOutcome.fetchError "never reached")
    "http://localhost/x" (by rfl) (by rfl)

/-- Claim C8 — sequentially, `0 ≤ remaining ≤ limit` holds after
construction and is preserved by every rate-limit check, for the positive
per-minute limits this repository configures; the third conjunct models
`createPlatformConfig`'s `options.rateLimitPerMinute || 60` default,
which yields a limit of at least 1 from any non-negative option. -/
theorem C8_rate_limiter_invariant :
    (∀ lim now : Int, 0 ≤ lim → rlInv (initRateLimiter lim now)) ∧
    (∀ (rl : RateLimiter) (now : Int), 1 ≤ rl.limit → rlInv rl →
      rlInv (checkRateLimit rl now).2) ∧
    (∀ o : Option Int, (∀ v, o = some v → 0 ≤ v) → 1 ≤ jsOrInt o 60) := by
  refine ⟨?_, ?_, ?_⟩
  · intro lim now h
    simp only [rlInv, initRateLimiter]
    omega
  · intro rl now hl hinv
    obtain ⟨hinv1, hinv2⟩ := hinv
    rw [checkRateLimit]
    by_cases hw : now > rl.resetAt
    · rw [if_pos hw]
      by_cases hr : rl.limit ≤ (0 : Int)
      · simp only [if_pos hr, rlInv]
        exact ⟨by simp; try omega, by simp; try omega⟩
      · simp only [if_neg hr, rlInv]
        exact ⟨by simp; try omega, by simp; try omega⟩
    · rw [if_neg hw]
      by_cases hr : rl.remaining ≤ (0 : Int)
      · simp only [if_pos hr, rlInv]
        exact ⟨by simp; try omega, by simp; try omega⟩
      · simp only [if_neg hr, rlInv]
        exact ⟨by simp; try omega, by simp; try omega⟩
  · intro o h
    match o with
    | none => simp [jsOrInt]
    | some v =>
      have h0 : (0 : Int) ≤ v := h v rfl
      simp only [jsOrInt]
      by_cases hv : v = 0
      · rw [if_pos hv]; omega
      · rw [if_neg hv]; omega

/-- Claim C8 witness — the invariant at the constructed limiter, after one
check, and the default limit. -/
theorem C8_rate_limiter_invariant_witness :
    rlInv (initRateLimiter 60 0) ∧
    rlInv (checkRateLimit (initRateLimiter 60 0) 5).2 ∧
    1 ≤ jsOrInt none 60 :=
  ⟨C8_rate_limiter_invariant.1 60 0 (by decide),
   C8_rate_limiter_invariant.2.1 (initRateLimiter 60 0) 5 (by decide)
     (C8_rate_limiter_invariant.1 60 0 (by decide)),
   C8_rate_limiter_invariant.2.2 none (fun v hv => by cases hv)⟩

/-- Claim C9 — auth header selection: with a (non-empty) access token
configured, the outgoing headers carry `Authorization: Bearer <token>`
and no `X-API-Key`, whatever the API key; with only a (non-empty) API
key, they carry `X-API-Key` and no `Authorization`; with neither truthy
credential, neither header is present.  (`jsTruthy` is JS truthiness:
absent or empty-string credentials are falsy.) -/
theorem C9_auth_header_selection (cfg : PlatformConfig) :
    (∀ t, cfg.credentials.accessToken = some t → t ≠ "" →
      recordGet (requestHeaders cfg []) "Authorization" = some ("Bearer " ++ t) ∧
      recordGet (requestHeaders cfg []) "X-API-Key" = none) ∧
    (∀ k, jsTruthy cfg.credentials.accessToken = false →
      cfg.credentials.apiKey = some k → k ≠ "" →
      recordGet (requestHeaders cfg []) "X-API-Key" = some k ∧
      recordGet (requestHeaders cfg []) "Authorization" = none) ∧
    (jsTruthy cfg.credentials.accessToken = false →
      jsTruthy cfg.credentials.apiKey = false →
      recordGet (requestHeaders cfg []) "Authorization" = none ∧
      recordGet (requestHeaders cfg []) "X-API-Key" = none) := by
  refine ⟨?_, ?_, ?_⟩
  · intro t hat ht
    have hga : getAuthHeaders cfg.credentials =
        [("Authorization", "Bearer " ++ t)] := by
      rw [getAuthHeaders, hat]
      simp [jsTruthy, ht]
    have hreq : requestHeaders cfg [] =
        [("Content-Type", "application/json"),
         ("User-Agent", "BlackRoad-CLI/" ++ cfg.version),
         ("Authorization", "Bearer " ++ t)] := by
      rw [requestHeaders, hga]
      rfl
    rw [hreq]
    exact ⟨rfl, rfl⟩
  · intro k hfa hak hk
    have hga : getAuthHeaders cfg.credentials = [("X-API-Key", k)] := by
      rw [getAuthHeaders, hfa, hak]
      simp [jsTruthy, hk]
    have hreq : requestHeaders cfg [] =
        [("Content-Type", "application/json"),
         ("User-Agent", "BlackRoad-CLI/" ++ cfg.version),
         ("X-API-Key", k)] := by
      rw [requestHeaders, hga]
      rfl
    rw [hreq]
    exact ⟨rfl, rfl⟩
  · intro hfa hfk
    have hga : getAuthHeaders cfg.credentials = [] := by
      rw [getAuthHeaders, hfa, hfk]
      simp
    have hreq : requestHeaders cfg [] =
        [("Content-Type", "application/json"),
         ("User-Agent", "BlackRoad-CLI/" ++ cfg.version)] := by
      rw [requestHeaders, hga]
      rfl
    rw [hreq]
    exact ⟨rfl, rfl⟩

/-- Claim C9 witness — a config with both `accessToken = "t"` and
`apiKey = "k"` yields `Authorization: Bearer t` and no `X-API-Key`. -/
theorem C9_auth_header_selection_witness :
    recordGet (requestHeaders sampleConfigBothCreds []) "Authorization" =
      some "Bearer t" ∧
    recordGet (requestHeaders sampleConfigBothCreds []) "X-API-Key" = none := by
  have h := (C9_auth_header_selection sampleConfigBothCreds).1 "t" rfl (by decide)
  exact ⟨h.1.trans rfl, h.2⟩

/-- Claim C2 counterexample — the claim says the auth header cannot be
overridden by the caller; but `options.headers` is spread last, so a
caller-supplied `Authorization` replaces the bearer token. -/
theorem C2_counterexample :
    recordGet (requestHeaders sampleConfigBothCreds [("Authorization", "overridden")])
        "Authorization" = some "overridden" ∧
    recordGet (requestHeaders sampleConfigBothCreds [("Authorization", "overridden")])
        "Authorization" ≠ some "Bearer t" := by
  exact ⟨rfl, by decide⟩

/-- Claim C2, amended — `Content-Type` and the versioned `User-Agent` are
always present as header keys, with their default values whenever the
caller does not supply that key; caller-supplied headers (a JS object:
keys unique) override ANY default header, including the auth header. -/
theorem C2_headers_overridable (cfg : PlatformConfig) (ch : Record)
    (hnd : (ch.map Prod.fst).Nodup) :
    ((recordGet (requestHeaders cfg ch) "Content-Type").isSome = true) ∧
    ((recordGet (requestHeaders cfg ch) "User-Agent").isSome = true) ∧
    (recordGet ch "Content-Type" = none →
      recordGet (requestHeaders cfg ch) "Content-Type" = some "application/json") ∧
    (recordGet ch "User-Agent" = none →
      recordGet (requestHeaders cfg ch) "User-Agent" =
        some ("BlackRoad-CLI/" ++ cfg.version)) ∧
    (∀ k v, recordGet ch k = some v →
      recordGet (requestHeaders cfg ch) k = some v) := by
  have hctAuth : recordGet (getAuthHeaders cfg.credentials) "Content-Type" = none := by
    rw [getAuthHeaders]
    split
    · rfl
    · split
      · rfl
      · rfl
  have huaAuth : recordGet (getAuthHeaders cfg.credentials) "User-Agent" = none := by
    rw [getAuthHeaders]
    split
    · rfl
    · split
      · rfl
      · rfl
  have hbasect :
      recordGet (recordSpread
        [("Content-Type", "application/json"),
         ("User-Agent", "BlackRoad-CLI/" ++ cfg.version)]
        (getAuthHeaders cfg.credentials)) "Content-Type" = some "application/json" := by
    rw [recordGet_recordSpread_of_none _ hctAuth]
    rfl
  have hbaseua :
      recordGet (recordSpread
        [("Content-Type", "application/json"),
         ("User-Agent", "BlackRoad-CLI/" ++ cfg.version)]
        (getAuthHeaders cfg.credentials)) "User-Agent" =
        some ("BlackRoad-CLI/" ++ cfg.version) := by
    rw [recordGet_recordSpread_of_none _ huaAuth]
    rfl
  refine ⟨?_, ?_, ?_, ?_, ?_⟩
  · rcases hc : recordGet ch "Content-Type" with _ | v
    · rw [requestHeaders, recordGet_recordSpread_of_none _ hc, hbasect]
      rfl
    · rw [requestHeaders, recordGet_recordSpread_of_some _ hnd hc]
      rfl
  · rcases hc : recordGet ch "User-Agent" with _ | v
    · rw [requestHeaders, recordGet_recordSpread_of_none _ hc, hbaseua]
      rfl
    · rw [requestHeaders, recordGet_recordSpread_of_some _ hnd hc]
      rfl
  · intro hc
    rw [requestHeaders, recordGet_recordSpread_of_none _ hc, hbasect]
  · intro hc
    rw [requestHeaders, recordGet_recordSpread_of_none _ hc, hbaseua]
  · intro k v hc
    rw [requestHeaders, recordGet_recordSpread_of_some _ hnd hc]

/-- Claim C2 witness — a caller header overrides the auth header while the
defaults survive when not overridden. -/
theorem C2_headers_overridable_witness :
    recordGet (requestHeaders sampleConfigBothCreds [("Authorization", "custom")])
        "Content-Type" = some "application/json" ∧
    recordGet (requestHeaders sampleConfigBothCreds [("Authorization", "custom")])
        "Authorization" = some "custom" := by
  have h := C2_headers_overridable sampleConfigBothCreds
    [("Authorization", "custom")] (by simp)
  exact ⟨h.2.2.1 rfl, h.2.2.2.2 "Authorization" "custom" rfl⟩

/-- Claim C6 — `validateUrl` rejects `http://localhost/x` in production and
accepts it otherwise; rejects every unparseable string in all modes; and
in production rejects every non-HTTPS scheme and every hostname in the
blocked set. -/
theorem C6_validateUrl :
    validateUrl "http://localhost/x" true = false ∧
    validateUrl "http://localhost/x" false = true ∧
    (∀ (s : String) (production : Bool), parseURL s = none →
      validateUrl s production = false) ∧
    (∀ (s : String) (u : URLRec), parseURL s = some u → u.scheme ≠ "https" →
      validateUrl s true = false) ∧
    (∀ (s : String) (u : URLRec), parseURL s = some u → u.host ∈ blockedHosts →
      validateUrl s true = false) := by
  refine ⟨rfl, rfl, ?_, ?_, ?_⟩
  · intro s production h
    rw [validateUrl, h]
  · intro s u h hs
    rw [validateUrl, h]
    simp only [Bool.true_and]
    rw [if_pos (by simpa [bne_iff_ne] using hs)]
  · intro s u h hm
    rw [validateUrl, h]
    simp only [Bool.true_and]
    by_cases hsch : (u.scheme != "https") = true
    · rw [if_pos hsch]
    · rw [if_neg hsch, if_pos (by simpa using List.elem_eq_true_of_mem hm)]
      rfl

/-- Claim C6 witness — an unparseable string, a non-HTTPS URL and a blocked
hostname, each rejected in production mode. -/
theorem C6_validateUrl_witness :
    validateUrl "not a url" true = false ∧
    validateUrl "http://api.example.com/x" true = false ∧
    validateUrl "https://127.0.0.1/x" true = false := by
  refine ⟨C6_validateUrl.2.2.1 "not a url" true rfl,
    C6_validateUrl.2.2.2.1 "http://api.example.com/x"
      ⟨"http", "api.example.com", none, "/x", [], none⟩ rfl (by decide),
    C6_validateUrl.2.2.2.2 "https://127.0.0.1/x"
      ⟨"https", "127.0.0.1", none, "/x", [], none⟩ rfl (by decide)⟩

/-- Claim C5 — with `retryAttempts = 3` and a fetch that rejects on every
attempt, `request` makes exactly 3 attempts, sleeps 1000 ms then 2000 ms
between them (`2 ^ attempt * 1000`), sleeps nothing after the last, and
fails carrying the error of the third attempt. -/
theorem C5_retry_exhaustion {J : Type} (cfg : PlatformConfig)
    (production : Bool) (rl : RateLimiter) (now : Int) (path : String)
    (q ch : Record) (url : String) (e : Nat → String)
    (hretry : cfg.retryAttempts = 3)
    (hbuild : buildUrlString cfg.baseUrl path q = some url)
    (hval : validateUrl url production = true) :
    (request (J := J) cfg production rl now path q ch
        (fun i => AttemptOutcome.fetchError (e i))).attempts = 3 ∧
    (request (J := J) cfg production rl now path q ch
        (fun i => AttemptOutcome.fetchError (e i))).backoffsMs = [1000, 2000] ∧
    (request (J := J) cfg production rl now path q ch
        (fun i => AttemptOutcome.fetchError (e i))).outcome =
      Except.error (RequestError.exhausted (some (e 2))) := by
  have hloop : retryLoop (J := J) (fun i => AttemptOutcome.fetchError (e i)) 3 =
      ⟨Except.error (some (e 2)), 3, [1000, 2000]⟩ := rfl
  rw [request]
  simp only [hbuild, hval, Bool.not_true, Bool.false_eq_true, if_false,
    hretry, hloop]
  exact ⟨trivial, trivial, trivial⟩

/-- Claim C5 witness — the three-attempt failure at a concrete valid
request. -/
theorem C5_retry_exhaustion_witness :
    (request (J := Unit) sampleConfig true (initRateLimiter 60 0) 5 "/v1/items"
        [] [] (fun i => AttemptOutcome.fetchError (toString i))).attempts = 3 ∧
    (request (J := Unit) sampleConfig true (initRateLimiter 60 0) 5 "/v1/items"
        [] [] (fun i => AttemptOutcome.fetchError (toString i))).backoffsMs =
      [1000, 2000] ∧
    (request (J := Unit) sampleConfig true (initRateLimiter 60 0) 5 "/v1/items"
        [] [] (fun i => AttemptOutcome.fetchError (toString i))).outcome =
      Except.error (RequestError.exhausted (some (toString 2))) :=
  C5_retry_exhaustion sampleConfig true (initRateLimiter 60 0) 5 "/v1/items"
    [] [] "https://api.example.com/v1/items" (fun i => toString i)
    rfl (by rfl) (by rfl)

/-- Claim C10 — an attempt whose fetch resolves (any status, including
2xx) but whose body fails to decode as JSON is a caught, retried
failure: with every response a non-decodable body, the loop runs all
`total` attempts with the exponential backoffs and ends with the last
decode error. -/
theorem C10_bad_json_retried {J : Type} (total : Nat) (st : Nat → Nat)
    (stx : Nat → String) (hs : Nat → Record) (e : Nat → String)
    (h1 : 1 ≤ total) :
    retryLoop (J := J)
        (fun i => AttemptOutcome.response (st i) (stx i) (hs i)
          (Except.error (e i))) total =
      ⟨Except.error (some (e (total - 1))), total,
       (List.range (total - 1)).map (fun i => 2 ^ i * 1000)⟩ :=
  retryLoop_allFail _ e total h1 (fun _ _ => rfl)

/-- Claim C10 witness — three 200-status responses with undecodable bodies:
three attempts, backoffs 1000 ms and 2000 ms, final decode error
surfaced. -/
theorem C10_bad_json_retried_witness :
    retryLoop (J := Unit)
        (fun i => AttemptOutcome.response 200 "OK" []
          (Except.error ("bad json " ++ toString i))) 3 =
      ⟨Except.error (some ("bad json " ++ toString 2)), 3, [1000, 2000]⟩ := by
  have h := C10_bad_json_retried (J := Unit) 3 (fun _ => 200) (fun _ => "OK")
    (fun _ => []) (fun i => "bad json " ++ toString i) (by norm_num)
  exact h.trans (by rfl)

/-- Claim C1 counterexample — the claim says a non-2xx response is never
returned to the caller as a success value; but `request` never inspects
the status: a 404 whose body decodes as JSON is returned as a success
carrying status 404, after a single attempt and no retries. -/
theorem C1_counterexample :
    (request (J := Nat) sampleConfig true (initRateLimiter 60 0) 5 "/v1/items"
        [] [] (fun _ => AttemptOutcome.response 404 "Not Found" []
          (Except.ok 7))).outcome =
      Except.ok ⟨404, "Not Found", [], 7, none⟩ ∧
    (request (J := Nat) sampleConfig true (initRateLimiter 60 0) 5 "/v1/items"
        [] [] (fun _ => AttemptOutcome.response 404 "Not Found" []
          (Except.ok 7))).attempts = 1 :=
  ⟨rfl, rfl⟩

/-- Claim C1, amended — the HTTP status is never inspected: the first
attempt whose fetch resolves with ANY status and a JSON-decodable body
ends the retry loop on that attempt, returning that response as a
success value carrying that status, however many earlier attempts threw
(each earlier failure incurring its `2 ^ attempt`-second backoff); only
attempts that throw (network failure, timeout, JSON-decode error) are
transient, and when every attempt throws, the call fails after the
configured limit with the last captured error. -/
theorem C1_status_not_inspected {J : Type} (oracle : Nat → AttemptOutcome J)
    (total : Nat) (h1 : 1 ≤ total) :
    (∀ (k : Nat) (e : Nat → String) (st : Nat) (stx : String) (hs : Record)
      (j : J), k < total →
      (∀ i, i < k → attemptErr (oracle i) = some (e i)) →
      oracle k = AttemptOutcome.response st stx hs (Except.ok j) →
      retryLoop oracle total =
        ⟨Except.ok ⟨st, stx, hs, j, recordGet hs "x-request-id"⟩, k + 1,
         (List.range k).map (fun i => 2 ^ i * 1000)⟩) ∧
    (∀ e : Nat → String, (∀ i, i < total → attemptErr (oracle i) = some (e i)) →
      retryLoop oracle total =
        ⟨Except.error (some (e (total - 1))), total,
         (List.range (total - 1)).map (fun i => 2 ^ i * 1000)⟩) := by
  constructor
  · intro k e st stx hs j hk hfail hok
    have h := retryLoopGo_prefixFail_success oracle e total st stx hs j k hk
      hfail hok total none (Nat.le_refl total) (by omega)
    rw [retryLoop, h, Nat.sub_self, List.range_eq_range']
    simp
  · intro e h
    exact retryLoop_allFail oracle e total h1 h

/-- Claim C1 witness — two attempts throw, then a 500-status JSON
response is returned as a success on the third of 3 configured attempts,
after backoffs of 1000 ms and 2000 ms. -/
theorem C1_status_not_inspected_witness :
    retryLoop (J := Unit)
        (fun i => if i < 2 then AttemptOutcome.fetchError ("boom " ++ toString i)
          else AttemptOutcome.response 500 "Internal Server Error"
            [("x-request-id", "r1")] (Except.ok ())) 3 =
      ⟨Except.ok ⟨500, "Internal Server Error", [("x-request-id", "r1")], (),
        some "r1"⟩, 3, [1000, 2000]⟩ := by
  have h := (C1_status_not_inspected (J := Unit)
    (fun i => if i < 2 then AttemptOutcome.fetchError ("boom " ++ toString i)
      else AttemptOutcome.response 500 "Internal Server Error"
        [("x-request-id", "r1")] (Except.ok ())) 3 (by norm_num)).1
    2 (fun i => "boom " ++ toString i) 500 "Internal Server Error"
    [("x-request-id", "r1")] () (by norm_num)
    (fun i hi => by interval_cases i <;> rfl) rfl
  exact h.trans (by rfl)

end BlackRoad
